import Mathlib

/-!
Shallow embedding of the real-time cursor-sharing prototype
(server session store and broadcaster, wire-protocol validation,
client network adapter with outbound throttle, and the renderer's
replicated-cursor reconciliation plus the deterministic terrain PRNG).

JavaScript 32-bit integer operations (`Math.imul`, `^`, `|`, `>>>`)
are modelled on `Nat` with explicit reduction modulo 2^32: the signed
interpretation of an int32 and its unsigned bit pattern agree modulo
2^32, and every use in the source feeds the pattern back through a
ToInt32/ToUint32 coercion, so tracking the unsigned pattern is exact.
-/

/-- The JS 32-bit wrap modulus 2^32. -/
def U32 : Nat := 4294967296

/-- ToUint32 coercion applied to a JS integer-valued number. -/
def toU32 (x : Int) : Nat := (x % (4294967296 : Int)).toNat

/-- Embedding of `hash2D` from src/engine/prng.ts: FNV-style mix of the
two coordinates with a salt, `h = imul(h ^ x, 16777619)` twice, with the
final `>>> 0` making the result an unsigned 32-bit value. -/
def hash2D (x y salt : Int) : Nat :=
  let h0 := Nat.xor (toU32 2166136261) (toU32 salt)
  let h1 := (Nat.xor h0 (toU32 x)) * 16777619 % U32
  let h2 := (Nat.xor h1 (toU32 y)) * 16777619 % U32
  h2

/-- One step of the `mulberry32` closure from src/engine/prng.ts:
given the current internal state `t` (an unsigned 32-bit pattern),
produce the next state and the 32-bit numerator of the emitted sample
(the source divides it by 2^32 to land in [0,1)). -/
def mulberryStep (t : Nat) : Nat × Nat :=
  let t1 := (t + 0x6D2B79F5) % U32
  let r1 := (Nat.xor t1 (t1 >>> 15)) * (Nat.lor 1 t1) % U32
  let r2 := Nat.xor r1 ((r1 + (Nat.xor r1 (r1 >>> 7)) * (Nat.lor 61 r1) % U32) % U32)
  (t1, Nat.xor r2 (r2 >>> 14))

/-- The n-th (0-based) 32-bit output of a `mulberry32` generator whose
internal state starts at `t`. -/
def mulberryOut (t : Nat) : Nat → Nat
  | 0 => (mulberryStep t).2
  | n + 1 => mulberryOut (mulberryStep t).1 n

/-- Per-tile visual parameters (hue, saturation, lightness) computed in
`GridRenderer.drawBaseTerrain` for tile (c, r): a fresh generator is
seeded from `hash2D(c, r, 9001)` and its first three samples give
`112 + floor(rnd()*10) - 5`, `45 + floor(rnd()*10) - 5`,
`44 + floor(rnd()*10) - 5`.  `floor(rnd()*10)` equals `out * 10 / 2^32`
exactly (all intermediate doubles are exact below 2^53). -/
def tileParams (c r : Nat) : Nat × Nat × Nat :=
  let seed := hash2D (Int.ofNat c) (Int.ofNat r) 9001
  let o0 := mulberryOut seed 0
  let o1 := mulberryOut seed 1
  let o2 := mulberryOut seed 2
  (112 + o0 * 10 / U32 - 5, 45 + o1 * 10 / U32 - 5, 44 + o2 * 10 / U32 - 5)

/-- The terrain pass of `drawBaseTerrain`, generalised over the order in
which tiles are visited: each visited tile receives the parameters
derived solely from its own coordinates (each tile seeds its own
generator, so no state flows between tiles). -/
def renderTerrain (order : List (Nat × Nat)) : List ((Nat × Nat) × (Nat × Nat × Nat)) :=
  order.map fun p => (p, tileParams p.1 p.2)

/-- The row-major visiting order the source actually uses
(`for r; for c` producing tile (c, r)). -/
def rowMajor (cols rows : Nat) : List (Nat × Nat) :=
  (List.range rows).flatMap fun r => (List.range cols).map fun c => (c, r)

/-!
Wire protocol (src/shared/protocol.ts).  Inbound frames are JSON
values; the zod schemas are embedded as a parser into the typed
`ClientToServer` union.  A JSON number is either integer-valued
(`numI`) or not (`numF`); every numeric field in the client-to-server
schemas carries `.int()`, so a non-integer number fails validation in
every position and its value is irrelevant.  Object fields are the
key-value pairs produced by JSON.parse (distinct keys).
-/

/-- A parsed JSON value, as delivered by JSON.parse. -/
inductive JValue where
  | null : JValue
  | bool (b : Bool) : JValue
  | numI (n : Int) : JValue
  | numF : JValue
  | str (s : String) : JValue
  | arr (xs : List JValue) : JValue
  | obj (fields : List (String × JValue)) : JValue

/-- Field lookup on a parsed JSON object. -/
def getField (fs : List (String × JValue)) (k : String) : Option JValue :=
  (fs.find? fun f => f.1 == k).map fun f => f.2

/-- A cursor position: non-negative integer grid coordinates. -/
structure Cursor where
  col : Nat
  row : Nat
deriving DecidableEq

/-- The validated client-to-server union (`HelloMsg`, `CursorMsg`,
`PingMsg` of protocol.ts).  `hello` carries version 1 implicitly
(parsing enforces the literal); `cursor` coordinates are `Nat` because
the schema enforces non-negative integers. -/
inductive ClientToServer where
  | hello (name : Option String) : ClientToServer
  | cursor (col row : Nat) : ClientToServer
  | ping (t : Int) : ClientToServer
deriving DecidableEq

/-- Embedding of `ClientToServer.safeParse`: the zod discriminated
union over `kind`, with each variant validated per its schema (extra
fields ignored, as zod objects strip unknown keys). -/
def parseClientToServer (j : JValue) : Option ClientToServer :=
  match j with
  | .obj fs =>
    match getField fs "kind" with
    | some (.str "hello") =>
      (match getField fs "version" with
       | some (.numI 1) =>
         (match getField fs "name" with
          | none => some (.hello none)
          | some (.str s) =>
            if 1 ≤ s.length ∧ s.length ≤ 24 then some (.hello (some s)) else none
          | some _ => none)
       | _ => none)
    | some (.str "cursor") =>
      (match getField fs "col", getField fs "row" with
       | some (.numI c), some (.numI r) =>
         if 0 ≤ c ∧ 0 ≤ r then some (.cursor c.toNat r.toNat) else none
       | _, _ => none)
    | some (.str "ping") =>
      (match getField fs "t" with
       | some (.numI t) => some (.ping t)
       | _ => none)
    | _ => none
  | _ => none

/-- An inbound frame after JSON.parse: `none` when the text was
unparseable JSON (JSON.parse threw), otherwise the parsed value.
`parseRaw` composes that with schema validation. -/
def parseRaw : Option JValue → Option ClientToServer
  | none => none
  | some j => parseClientToServer j

/-- Summary of one participant as serialised into `players` and
`playerUpdate` messages. -/
structure PlayerSummary where
  id : String
  name : Option String
  cursor : Option Cursor
  lastSeen : Int
deriving DecidableEq

/-- The grid descriptor. -/
structure Grid where
  tileSize : Nat
  cols : Nat
  rows : Nat
deriving DecidableEq

/-- The validated server-to-client union of protocol.ts. -/
inductive ServerToClient where
  | welcome (yourId : String) (grid : Grid) : ServerToClient
  | players (players : List PlayerSummary) : ServerToClient
  | playerUpdate (player : PlayerSummary) : ServerToClient
  | playerLeave (id : String) : ServerToClient
deriving DecidableEq

/-!
Server session store and broadcaster (server/server.ts).  The
`clients` Map is modelled as a list of `ClientState` in insertion
order; `wsOpen` is the `readyState === OPEN` test used by `broadcast`.
A JS object mutation of one connection's state is modelled by
replacing the matching entry in the list.  The admin side channel
(`adminBroadcast`) targets a distinct observer socket set and never
carries game messages, so it is left out of the store model.
-/

/-- The per-connection server state (`ClientState` in server.ts),
with `wsOpen` standing for `ws.readyState === WebSocket.OPEN`. -/
structure ClientState where
  id : String
  name : Option String
  cursor : Option Cursor
  lastSeen : Int
  wsOpen : Bool
deriving DecidableEq

/-- The process-wide grid constant `GRID` of server.ts. -/
def GRID : Grid := ⟨32, 40, 24⟩

/-- Serialisation of a participant into the wire summary shape. -/
def summarize (c : ClientState) : PlayerSummary :=
  ⟨c.id, c.name, c.cursor, c.lastSeen⟩

/-- Embedding of `broadcast(msg, exceptId)`: walk the store in order,
skip the excepted id, send to every connection whose socket is open.
The result is the list of (recipient id, message) pairs emitted. -/
def broadcast (cs : List ClientState) (msg : ServerToClient) (exceptId : Option String) :
    List (String × ServerToClient) :=
  cs.filterMap fun c =>
    if exceptId = some c.id then none
    else if c.wsOpen then some (c.id, msg) else none

/-- Mutating one connection's state object, as seen through the Map:
every entry with that id now shows the new record. -/
def mapReplace (cs : List ClientState) (st : ClientState) : List ClientState :=
  cs.map fun c => if c.id = st.id then st else c

/-- JS `Map.set`: overwrite in place when the key exists, append
otherwise. -/
def mapSet (cs : List ClientState) (st : ClientState) : List ClientState :=
  if cs.any fun c => c.id = st.id then mapReplace cs st else cs ++ [st]

/-- The `switch (data.kind)` body of the game socket's message handler:
given the sender's state object `st` (already carrying the refreshed
`lastSeen`), the store, and a validated message, produce the sender's
new state, the new store, and the broadcast fan-out. -/
def ClientToServerStep (st : ClientState) (cs : List ClientState) (msg : ClientToServer) :
    ClientState × List ClientState × List (String × ServerToClient) :=
  match msg with
  | .hello name =>
    let st1 := { st with name := name.map fun s => s.take 24 }
    let cs1 := mapReplace cs st1
    (st1, cs1, broadcast cs1 (.playerUpdate (summarize st1)) none)
  | .cursor col row =>
    let c : Cursor := ⟨max 0 (min (GRID.cols - 1) col), max 0 (min (GRID.rows - 1) row)⟩
    let st1 := { st with cursor := some c }
    let cs1 := mapReplace cs st1
    (st1, cs1, broadcast cs1 (.playerUpdate (summarize st1)) (some st1.id))
  | .ping _ => (st, cs, [])

/-- The full `ws.on('message')` handler: refresh `lastSeen`
unconditionally, then parse and validate; anything invalid returns
with no further effect. -/
def onMessage (st : ClientState) (cs : List ClientState) (t : Int) (raw : Option JValue) :
    ClientState × List ClientState × List (String × ServerToClient) :=
  let st1 := { st with lastSeen := t }
  let cs1 := mapReplace cs st1
  match parseRaw raw with
  | none => (st1, cs1, [])
  | some msg => ClientToServerStep st1 cs1 msg

/-- The `gameWss.on('connection')` handler: insert a fresh participant
with no name and no cursor, then unicast to the new socket, in order,
the `welcome` and a full `players` snapshot of the updated store. -/
def onConnection (cs : List ClientState) (id : String) (t : Int) :
    List ClientState × List ServerToClient :=
  let st : ClientState := ⟨id, none, none, t, true⟩
  let cs1 := mapSet cs st
  (cs1, [.welcome id GRID, .players (cs1.map summarize)])

/-!
Client network adapter (src/engine/net/Client.ts).  Only the cursor
throttle carries state relevant to the claims: `lastSend` (initially
0, as `performance.now()` milliseconds) and whether the underlying
socket is open when `send` runs.  Times are rationals, standing for
the real-valued millisecond clock.
-/

/-- One call to `NetClient.sendCursor` at wall-clock `now`, with the
socket open or not: returns the new `lastSend` and whether a cursor
frame was actually transmitted (the private `send` is a no-op on a
non-open socket, but `lastSend` has already been overwritten). -/
def sendCursorStep (lastSend now : ℚ) (wsOpen : Bool) : ℚ × Bool :=
  if now - lastSend < 33 then (lastSend, false)
  else (now, wsOpen)

/-- A sequence of `sendCursor` calls, each tagged with its wall-clock
time and the socket's openness at that moment; the result is the list
of times at which a cursor frame was actually transmitted. -/
def runSendCursor (lastSend : ℚ) : List (ℚ × Bool) → List ℚ
  | [] => []
  | (now, o) :: rest =>
    let s := sendCursorStep lastSend now o
    if s.2 then now :: runSendCursor s.1 rest else runSendCursor s.1 rest

/-!
Render/reconciliation engine (src/engine/GridRenderer.ts) and the App
handlers wired into the NetClient (src/App.tsx).
-/

/-- A replicated remote cursor entry kept by the renderer. -/
structure ReplicatedCursor where
  id : String
  name : Option String
  col : Nat
  row : Nat
deriving DecidableEq

/-- Embedding of `GridRenderer.upsertReplicatedCursor`: replace the
first entry with a matching id (`findIndex` + assignment), else push. -/
def upsertReplicatedCursor (cursors : List ReplicatedCursor) (c : ReplicatedCursor) :
    List ReplicatedCursor :=
  match cursors.findIdx? fun x => x.id == c.id with
  | some i => cursors.set i c
  | none => cursors ++ [c]

/-- Embedding of `GridRenderer.removeReplicatedCursor`. -/
def removeReplicatedCursor (cursors : List ReplicatedCursor) (id : String) :
    List ReplicatedCursor :=
  cursors.filter fun c => !(c.id == id)

/-- The client view state the App handlers act on: `youRef.current`
and the renderer's replicated-cursor list. -/
structure ClientView where
  you : Option String
  cursors : List ReplicatedCursor
deriving DecidableEq

/-- The App's initial view: `youRef` is null and the renderer starts
with no replicated cursors. -/
def initialView : ClientView := ⟨none, []⟩

/-- The App's four NetClient handlers, as one step function over the
dispatched (already validated) server message.  `welcome` records the
local id; `players` replaces the set with the snapshot entries that
carry a cursor and are not the local id; `playerUpdate` is ignored for
the local id or a cursorless payload and upserts otherwise;
`playerLeave` removes the id. -/
def clientStep (v : ClientView) (m : ServerToClient) : ClientView :=
  match m with
  | .welcome yourId _ => { v with you := some yourId }
  | .players ps =>
    { v with
      cursors := ps.filterMap fun p =>
        match p.cursor with
        | some c =>
          if v.you = some p.id then none
          else some ⟨p.id, p.name, c.col, c.row⟩
        | none => none }
  | .playerUpdate u =>
    if v.you = some u.id then v
    else
      match u.cursor with
      | some c => { v with cursors := upsertReplicatedCursor v.cursors ⟨u.id, u.name, c.col, c.row⟩ }
      | none => v
  | .playerLeave i => { v with cursors := removeReplicatedCursor v.cursors i }

/-- A sequence of handler invocations in delivery order. -/
def clientRun (v : ClientView) (ms : List ServerToClient) : ClientView :=
  ms.foldl clientStep v

/-- Holds when a message, if it is a welcome, carries the given local
id — per connection the server issues exactly one welcome, with the
id it assigned that connection. -/
def welcomeIs (myId : String) : ServerToClient → Bool
  | .welcome i _ => i == myId
  | _ => true

/-- Holds when the welcome precedes any players snapshot or
playerUpdate in the stream — the per-connection FIFO order the server
produces (scanning from the head, only playerLeave may occur before
the first welcome; after a welcome anything may follow). -/
def welcomeFirst : List ServerToClient → Bool
  | [] => true
  | .welcome _ _ :: _ => true
  | .players _ :: _ => false
  | .playerUpdate _ :: _ => false
  | .playerLeave _ :: rest => welcomeFirst rest

/-!
Helper lemmas shared by the claim theorems.
-/

/-- Every pair emitted by `broadcast` carries the broadcast message. -/
theorem broadcast_snd (cs : List ClientState) (msg : ServerToClient) (e : Option String) :
    ∀ pr ∈ broadcast cs msg e, pr.2 = msg := by
  intro pr hpr
  simp only [broadcast, List.mem_filterMap] at hpr
  obtain ⟨c, _, hc⟩ := hpr
  by_cases h1 : e = some c.id
  · simp [h1] at hc
  · by_cases h2 : c.wsOpen = true
    · simp [h1, h2] at hc
      exact (congrArg Prod.snd hc).symm
    · simp [h1, h2] at hc

/-- Every pair emitted by a `broadcast` that excepts id `i` goes to a
recipient other than `i`. -/
theorem broadcast_except (cs : List ClientState) (msg : ServerToClient) (i : String) :
    ∀ pr ∈ broadcast cs msg (some i), pr.1 ≠ i := by
  intro pr hpr
  simp only [broadcast, List.mem_filterMap] at hpr
  obtain ⟨c, _, hc⟩ := hpr
  by_cases h1 : some i = some c.id
  · simp [h1] at hc
  · by_cases h2 : c.wsOpen = true
    · simp [h1, h2] at hc
      subst hc
      intro he
      exact h1 (by rw [show c.id = i from he])
    · simp [h1, h2] at hc

/-- C1: every valid cursor report is accepted (never rejected), the
stored cursor is clamped into [0, cols-1] x [0, rows-1], every
broadcast copy carries exactly the clamped stored cursor, and in
particular col 999 / row 999 against the 40x24 grid is stored and
broadcast as (39, 23) after passing schema validation unchanged. -/
theorem cursor_clamped_c1 (st : ClientState) (cs : List ClientState) (col row : Nat) :
    (∃ c : Cursor,
      (ClientToServerStep st cs (.cursor col row)).1.cursor = some c
      ∧ c.col < GRID.cols ∧ c.row < GRID.rows
      ∧ ∀ pr ∈ (ClientToServerStep st cs (.cursor col row)).2.2,
          pr.2 = .playerUpdate ⟨st.id, st.name, some c, st.lastSeen⟩)
    ∧ (ClientToServerStep st cs (.cursor 999 999)).1.cursor = some ⟨39, 23⟩
    ∧ parseClientToServer
        (.obj [("kind", .str "cursor"), ("col", .numI 999), ("row", .numI 999)])
        = some (.cursor 999 999) := by
  refine ⟨⟨⟨max 0 (min (GRID.cols - 1) col), max 0 (min (GRID.rows - 1) row)⟩, rfl, ?_, ?_, ?_⟩, ?_, ?_⟩
  · show max 0 (min 39 col) < 40
    omega
  · show max 0 (min 23 row) < 24
    omega
  · intro pr hpr
    exact broadcast_snd _ _ _ pr hpr
  · rfl
  · decide

/-- C9: a `playerUpdate` whose payload has no cursor field leaves the
client view — in particular the replicated-cursor set — completely
unchanged, whether or not the id is the local one. -/
theorem cursorless_update_noop_c9 (v : ClientView) (u : PlayerSummary)
    (h : u.cursor = none) : clientStep v (.playerUpdate u) = v := by
  simp only [clientStep, h]
  split <;> rfl

/-- Witness for C9 at a concrete name-only update for a participant
already replicated and for one never seen. -/
theorem cursorless_update_noop_c9_witness :
    (⟨"p1", some "Pat", none, 5⟩ : PlayerSummary).cursor = none
    ∧ clientStep ⟨some "me", [⟨"p1", none, 1, 2⟩]⟩ (.playerUpdate ⟨"p1", some "Pat", none, 5⟩)
        = ⟨some "me", [⟨"p1", none, 1, 2⟩]⟩ :=
  ⟨rfl, cursorless_update_noop_c9 ⟨some "me", [⟨"p1", none, 1, 2⟩]⟩ ⟨"p1", some "Pat", none, 5⟩ rfl⟩

/-- C10: the terrain seed and generator are deterministic — equal
coordinates, salt and sample index always give the same sample (so a
tile's visual variation never depends on draw order or other state):
the seed is a well-formed unsigned 32-bit value, each visited tile
of a terrain pass in any visiting order receives the parameters
computed purely from its own coordinates, and in particular so does
every in-range tile of the actual row-major pass. -/
theorem terrain_deterministic_c10 :
    (∀ (x y salt x1 y1 salt1 : Int) (n : Nat), x = x1 → y = y1 → salt = salt1 →
      mulberryOut (hash2D x y salt) n = mulberryOut (hash2D x1 y1 salt1) n)
    ∧ (∀ x y salt : Int, hash2D x y salt < U32)
    ∧ (∀ (order : List (Nat × Nat)) (c r : Nat), (c, r) ∈ order →
        ((c, r), tileParams c r) ∈ renderTerrain order)
    ∧ (∀ cols rows c r : Nat, c < cols → r < rows →
        ((c, r), tileParams c r) ∈ renderTerrain (rowMajor cols rows)) := by
  refine ⟨?_, ?_, ?_, ?_⟩
  · intro x y salt x1 y1 salt1 n hx hy hs
    rw [hx, hy, hs]
  · intro x y salt
    show _ % U32 < U32
    exact Nat.mod_lt _ (by decide)
  · intro order c r hmem
    simpa [renderTerrain] using List.mem_map_of_mem (fun p => (p, tileParams p.1 p.2)) hmem
  · intro cols rows c r hc hr
    have hmem : (c, r) ∈ rowMajor cols rows := by
      simp only [rowMajor, List.mem_flatMap, List.mem_map, List.mem_range]
      exact ⟨r, hr, c, hc, rfl⟩
    simpa [renderTerrain] using List.mem_map_of_mem (fun p => (p, tileParams p.1 p.2)) hmem

/-- Witness for C10: concrete evaluations of the seed, the first
sample and a tile of the real 40x24 row-major pass. -/
theorem terrain_deterministic_c10_witness :
    mulberryOut (hash2D 3 5 9001) 0 = mulberryOut (hash2D 3 5 9001) 0
    ∧ hash2D 3 5 9001 < U32
    ∧ ((2, 1), tileParams 2 1) ∈ renderTerrain (rowMajor 40 24)
    ∧ tileParams 2 1 = (114, 42, 39) :=
  ⟨terrain_deterministic_c10.1 3 5 9001 3 5 9001 0 rfl rfl rfl,
   terrain_deterministic_c10.2.1 3 5 9001,
   terrain_deterministic_c10.2.2.2 40 24 2 1 (by decide) (by decide),
   by decide⟩

/-- C4 counterexample: a participant whose name was already set to
"Ann" by a first hello receives a second hello naming "Bob"; the
stored name changes, so the name is not immutable after being set. -/
theorem name_immutable_c4_counterexample :
    (ClientToServerStep ⟨"a1", some "Ann", none, 0, true⟩
      [⟨"a1", some "Ann", none, 0, true⟩] (.hello (some "Bob"))).1.name
      ≠ (⟨"a1", some "Ann", none, 0, true⟩ : ClientState).name := by
  set_option maxRecDepth 4000 in decide

/-- C4 amended: the stored name is recomputed by every hello message —
set to the hello\'s name truncated to 24 characters, or cleared when the
hello carries no name — and no other inbound message, valid or not,
changes it. -/
theorem name_set_by_every_hello_c4 (st : ClientState) (cs : List ClientState) (t : Int)
    (raw : Option JValue) :
    (onMessage st cs t raw).1.name
      = match parseRaw raw with
        | some (.hello n) => n.map fun s => s.take 24
        | _ => st.name := by
  unfold onMessage
  cases hp : parseRaw raw with
  | none => rfl
  | some msg => cases msg <;> rfl

/-- C5: an inbound frame that is unparseable JSON or fails schema
validation produces no broadcast, leaves the sender\'s name, cursor and
socket state unchanged, refreshes the sender\'s lastSeen, and leaves
every store entry\'s id, name, cursor and socket state as they were
(membership unchanged, connection not torn down).  The hypothesis
`hgood` says the store\'s entry for the sender is the sender\'s own
state object, as the server maintains. -/
theorem invalid_frame_inert_c5 (st : ClientState) (cs : List ClientState) (t : Int)
    (raw : Option JValue)
    (hinvalid : parseRaw raw = none)
    (hgood : ∀ c ∈ cs, c.id = st.id → c = st) :
    (onMessage st cs t raw).2.2 = []
    ∧ (onMessage st cs t raw).1.name = st.name
    ∧ (onMessage st cs t raw).1.cursor = st.cursor
    ∧ (onMessage st cs t raw).1.wsOpen = st.wsOpen
    ∧ (onMessage st cs t raw).1.lastSeen = t
    ∧ ((onMessage st cs t raw).2.1).map (fun c => (c.id, c.name, c.cursor, c.wsOpen))
        = cs.map (fun c => (c.id, c.name, c.cursor, c.wsOpen)) := by
  unfold onMessage
  rw [hinvalid]
  refine ⟨rfl, rfl, rfl, rfl, rfl, ?_⟩
  show (mapReplace cs { st with lastSeen := t }).map _ = _
  unfold mapReplace
  rw [List.map_map]
  refine List.map_congr_left fun c hc => ?_
  by_cases h : c.id = st.id
  · have := hgood c hc h
    subst this
    simp [h]
  · simp [h]

/-- C3: accepting a connection under a fresh id appends a participant
with that id and no name, no cursor; the only frames unicast to the
new connection are, in order, the welcome (carrying the id and the
grid descriptor) and then a full players snapshot of the updated
store, which contains the new participant and every pre-existing
one. -/
theorem accept_welcome_then_snapshot_c3 (cs : List ClientState) (id : String) (t : Int)
    (hfresh : ∀ c ∈ cs, c.id ≠ id) :
    (onConnection cs id t).1 = cs ++ [(⟨id, none, none, t, true⟩ : ClientState)]
    ∧ (onConnection cs id t).2
        = [.welcome id GRID,
           .players ((cs ++ [(⟨id, none, none, t, true⟩ : ClientState)]).map summarize)]
    ∧ (⟨id, none, none, t⟩ : PlayerSummary)
        ∈ (cs ++ [(⟨id, none, none, t, true⟩ : ClientState)]).map summarize
    ∧ ∀ c ∈ cs, summarize c ∈ (cs ++ [(⟨id, none, none, t, true⟩ : ClientState)]).map summarize := by
  have hany : (cs.any fun c => c.id = (⟨id, none, none, t, true⟩ : ClientState).id) = false := by
    rw [List.any_eq_false]
    intro c hc
    simpa using hfresh c hc
  have hset : mapSet cs ⟨id, none, none, t, true⟩ = cs ++ [⟨id, none, none, t, true⟩] := by
    unfold mapSet
    rw [hany]
    simp
  refine ⟨?_, ?_, ?_, ?_⟩
  · show mapSet cs _ = _
    exact hset
  · show [ServerToClient.welcome id GRID, .players ((mapSet cs _).map summarize)] = _
    rw [hset]
  · rw [List.map_append]
    exact List.mem_append_right _ (by simp [summarize])
  · intro c hc
    rw [List.map_append]
    exact List.mem_append_left _ (List.mem_map_of_mem summarize hc)

/-- Witness for C3 at a one-participant store and a fresh id. -/
theorem accept_welcome_then_snapshot_c3_witness :
    (onConnection [⟨"a1", some "Ann", some ⟨1, 2⟩, 7, true⟩] "b2" 9).1
      = [⟨"a1", some "Ann", some ⟨1, 2⟩, 7, true⟩, ⟨"b2", none, none, 9, true⟩]
    ∧ (onConnection [⟨"a1", some "Ann", some ⟨1, 2⟩, 7, true⟩] "b2" 9).2
      = [.welcome "b2" GRID,
         .players [⟨"a1", some "Ann", some ⟨1, 2⟩, 7⟩, ⟨"b2", none, none, 9⟩]] :=
  ⟨(accept_welcome_then_snapshot_c3 _ "b2" 9 (by decide)).1,
   (accept_welcome_then_snapshot_c3 _ "b2" 9 (by decide)).2.1⟩

/-- Unfolding lemma: one step of `broadcast` over a cons cell. -/
theorem broadcast_cons (c : ClientState) (cs : List ClientState) (m : ServerToClient)
    (e : Option String) :
    broadcast (c :: cs) m e
      = if e = some c.id then broadcast cs m e
        else if c.wsOpen then (c.id, m) :: broadcast cs m e else broadcast cs m e := by
  by_cases h1 : e = some c.id
  · simp [broadcast, List.filterMap_cons, h1]
  · by_cases h2 : c.wsOpen = true
    · simp [broadcast, List.filterMap_cons, h1, h2]
    · simp only [Bool.not_eq_true] at h2
      simp [broadcast, List.filterMap_cons, h1, h2]

/-- Unfolding lemma: one step of `mapReplace` over a cons cell. -/
theorem mapReplace_cons (c : ClientState) (cs : List ClientState) (st : ClientState) :
    mapReplace (c :: cs) st = (if c.id = st.id then st else c) :: mapReplace cs st := rfl

/-- Recipients of a broadcast that excepts the mutated entry: exactly
the open connections other than that id, in store order. -/
theorem broadcast_mapReplace_except (cs : List ClientState) (st st1 : ClientState)
    (hid : st1.id = st.id) (m : ServerToClient) :
    (broadcast (mapReplace cs st1) m (some st1.id)).map Prod.fst
      = (cs.filter fun c => c.wsOpen && !(c.id == st.id)).map fun c => c.id := by
  induction cs with
  | nil => rfl
  | cons c rest ih =>
    rw [mapReplace_cons, broadcast_cons]
    by_cases hc : c.id = st.id
    · have hc1 : c.id = st1.id := by rw [hid]; exact hc
      rw [if_pos hc1]
      have he : some st1.id = some (st1 : ClientState).id := rfl
      rw [if_pos he, List.filter_cons_of_neg (by simp [hc])]
      exact ih
    · have hc1 : ¬c.id = st1.id := by rw [hid]; exact hc
      rw [if_neg hc1]
      have he : ¬some st1.id = some c.id := by
        intro h
        exact hc1 ((Option.some_inj.mp h).symm)
      rw [if_neg he]
      by_cases ho : c.wsOpen = true
      · rw [if_pos ho, List.filter_cons_of_pos (by simp [ho, hc]), List.map_cons,
          List.map_cons]
        exact congrArg (c.id :: ·) ih
      · rw [if_neg ho, List.filter_cons_of_neg (by simp [ho])]
        exact ih

/-- Recipients of an unexcepted broadcast over the mutated store:
every open connection, in store order; `hgood` ties the mutated entry
to the sender so socket state is preserved by the replacement. -/
theorem broadcast_mapReplace_all (cs : List ClientState) (st st1 : ClientState)
    (hid : st1.id = st.id) (hopen : st1.wsOpen = st.wsOpen)
    (hgood : ∀ c ∈ cs, c.id = st.id → c = st) (m : ServerToClient) :
    (broadcast (mapReplace cs st1) m none).map Prod.fst
      = (cs.filter fun c => c.wsOpen).map fun c => c.id := by
  induction cs with
  | nil => rfl
  | cons c rest ih =>
    have ih2 := ih fun x hx => hgood x (List.mem_cons_of_mem c hx)
    rw [mapReplace_cons, broadcast_cons]
    by_cases hc : c.id = st.id
    · have hcs : c = st := hgood c (List.mem_cons_self c rest) hc
      have hc1 : c.id = st1.id := by rw [hid]; exact hc
      rw [if_pos hc1, if_neg (by simp)]
      by_cases ho : c.wsOpen = true
      · rw [if_pos (by rw [hopen, ← hcs]; exact ho),
          List.filter_cons_of_pos (by simp [ho]), List.map_cons, List.map_cons,
          ih2, hid, hc]
      · rw [if_neg (by rw [hopen, ← hcs]; exact ho),
          List.filter_cons_of_neg (by simpa using ho)]
        exact ih2
    · have hc1 : ¬c.id = st1.id := by rw [hid]; exact hc
      rw [if_neg hc1, if_neg (by simp)]
      by_cases ho : c.wsOpen = true
      · rw [if_pos ho, List.filter_cons_of_pos (by simp [ho]), List.map_cons,
          List.map_cons]
        exact congrArg (c.id :: ·) ih2
      · rw [if_neg ho, List.filter_cons_of_neg (by simpa using ho)]
        exact ih2

/-- C2: a cursor message from a participant fans out to exactly the
open connections other than the sender (the sender never receives its
own cursor echo), while a hello message fans out to exactly the open
connections with no exception — in particular to the sender itself
whenever its connection is in the store and open.  `hgood` ties the
store entry under the sender id to the sender state object. -/
theorem delta_recipients_c2 (st : ClientState) (cs : List ClientState) (col row : Nat)
    (name : Option String)
    (hgood : ∀ c ∈ cs, c.id = st.id → c = st) :
    ((ClientToServerStep st cs (.cursor col row)).2.2).map Prod.fst
        = ((cs.filter fun c => c.wsOpen && !(c.id == st.id)).map fun c => c.id)
    ∧ ((ClientToServerStep st cs (.hello name)).2.2).map Prod.fst
        = ((cs.filter fun c => c.wsOpen).map fun c => c.id)
    ∧ st.id ∉ ((ClientToServerStep st cs (.cursor col row)).2.2).map Prod.fst
    ∧ (st ∈ cs → st.wsOpen = true →
        st.id ∈ ((ClientToServerStep st cs (.hello name)).2.2).map Prod.fst) := by
  have hcur : ((ClientToServerStep st cs (.cursor col row)).2.2).map Prod.fst
      = (cs.filter fun c => c.wsOpen && !(c.id == st.id)).map fun c => c.id :=
    broadcast_mapReplace_except cs st
      { st with cursor := some ⟨max 0 (min (GRID.cols - 1) col),
                               max 0 (min (GRID.rows - 1) row)⟩ } rfl _
  have hhel : ((ClientToServerStep st cs (.hello name)).2.2).map Prod.fst
      = (cs.filter fun c => c.wsOpen).map fun c => c.id :=
    broadcast_mapReplace_all cs st { st with name := name.map fun s => s.take 24 }
      rfl rfl hgood _
  refine ⟨hcur, hhel, ?_, ?_⟩
  · rw [hcur]
    intro hmem
    simp only [List.mem_map, List.mem_filter] at hmem
    obtain ⟨c, ⟨_, hf⟩, hcid⟩ := hmem
    rw [hcid] at hf
    simp at hf
  · intro hst ho
    rw [hhel]
    exact List.mem_map_of_mem (fun c => c.id) (List.mem_filter.mpr ⟨hst, ho⟩)

/-- Witness for C2: a three-entry store (sender open, one open peer,
one closed peer): the cursor delta reaches only the open peer, the
hello delta reaches the sender and the open peer. -/
theorem delta_recipients_c2_witness :
    ((ClientToServerStep ⟨"a1", none, none, 0, true⟩
        [⟨"a1", none, none, 0, true⟩, ⟨"b2", none, none, 0, true⟩,
         ⟨"c3", none, none, 0, false⟩] (.cursor 5 3)).2.2).map Prod.fst = ["b2"]
    ∧ ((ClientToServerStep ⟨"a1", none, none, 0, true⟩
        [⟨"a1", none, none, 0, true⟩, ⟨"b2", none, none, 0, true⟩,
         ⟨"c3", none, none, 0, false⟩] (.hello (some "Ann"))).2.2).map Prod.fst
      = ["a1", "b2"] := by
  have h := delta_recipients_c2 ⟨"a1", none, none, 0, true⟩
    [⟨"a1", none, none, 0, true⟩, ⟨"b2", none, none, 0, true⟩,
     ⟨"c3", none, none, 0, false⟩] 5 3 (some "Ann") (by decide)
  exact ⟨h.1.trans (by decide), h.2.1.trans (by decide)⟩

/-- Throttle run invariant: every transmitted time is at least 33 ms
past the tracked lastSend, and consecutive transmitted times are at
least 33 ms apart. -/
theorem runSendCursor_spaced (events : List (ℚ × Bool)) : ∀ lastSend : ℚ,
    (∀ t ∈ runSendCursor lastSend events, lastSend + 33 ≤ t)
    ∧ (runSendCursor lastSend events).Chain' (fun a b => a + 33 ≤ b) := by
  induction events with
  | nil =>
    intro ls
    simp [runSendCursor]
  | cons ev rest ih =>
    intro ls
    obtain ⟨now, o⟩ := ev
    by_cases h : now - ls < 33
    · have hrw : runSendCursor ls ((now, o) :: rest) = runSendCursor ls rest := by
        simp [runSendCursor, sendCursorStep, h]
      rw [hrw]
      exact ih ls
    · have h33 : ls + 33 ≤ now := by
        have := not_lt.mp h
        linarith
      cases o with
      | true =>
        have hrw : runSendCursor ls ((now, true) :: rest) = now :: runSendCursor now rest := by
          simp [runSendCursor, sendCursorStep, h]
        rw [hrw]
        refine ⟨?_, List.chain'_cons'.mpr ⟨?_, (ih now).2⟩⟩
        · intro t ht
          rcases List.mem_cons.mp ht with rfl | ht2
          · exact h33
          · have := (ih now).1 t ht2
            linarith
        · intro y hy
          exact (ih now).1 y (List.mem_of_mem_head? hy)
      | false =>
        have hrw : runSendCursor ls ((now, false) :: rest) = runSendCursor now rest := by
          simp [runSendCursor, sendCursorStep, h]
        rw [hrw]
        refine ⟨?_, (ih now).2⟩
        intro t ht
        have := (ih now).1 t ht
        linarith

/-- C6 counterexample: with the socket not yet open, a call at t=100
passes the throttle check, transmits nothing (the private send is a
no-op on a non-open socket), yet overwrites lastSend; the next call at
t=120 with the socket open is then dropped, even though no cursor
message was ever transmitted — a call whose transmission is skipped
does consume the window, contrary to the claim. -/
theorem throttle_c6_counterexample :
    runSendCursor 0 [(100, false), (120, true)] = []
    ∧ (sendCursorStep 0 100 false).2 = false
    ∧ (sendCursorStep 0 100 false).1 = 100 := by
  refine ⟨?_, ?_, ?_⟩
  · norm_num [runSendCursor, sendCursorStep]
  · norm_num [sendCursorStep]
  · norm_num [sendCursorStep]

/-- C6 amended: at most one cursor message is transmitted per
33-millisecond window measured from the last call that passed the
throttle check (not from the last successful transmission): every
transmission happens at least 33 ms after the tracked lastSend,
consecutive transmissions are at least 33 ms apart, calls inside the
window transmit nothing and leave the state unchanged (dropped, not
queued), and a call that passes the check overwrites lastSend — it
consumes the window — even when the socket is closed and nothing is
transmitted. -/
theorem throttle_c6_amended (lastSend : ℚ) (events : List (ℚ × Bool)) :
    (∀ t ∈ runSendCursor lastSend events, lastSend + 33 ≤ t)
    ∧ (runSendCursor lastSend events).Chain' (fun a b => a + 33 ≤ b)
    ∧ (∀ now o, now - lastSend < 33 → sendCursorStep lastSend now o = (lastSend, false))
    ∧ (∀ now o, ¬now - lastSend < 33 → sendCursorStep lastSend now o = (now, o)) :=
  ⟨(runSendCursor_spaced events lastSend).1,
   (runSendCursor_spaced events lastSend).2,
   fun now o h => by simp [sendCursorStep, h],
   fun now o h => by simp [sendCursorStep, h]⟩

/-- Witness for C6 amended at concrete values: the call at t=50 with
lastSend 0 passes the check and consumes the window even though the
socket is closed and nothing is transmitted. -/
theorem throttle_c6_amended_witness :
    ¬(50 : ℚ) - 0 < 33 ∧ sendCursorStep 0 50 false = (50, false) :=
  ⟨by norm_num, (throttle_c6_amended 0 []).2.2.2 50 false (by norm_num)⟩

/-- Unfolding lemma: upsert over a cons cell — replace the head when
its id matches, otherwise keep the head and recurse. -/
theorem upsertReplicatedCursor_cons (x : ReplicatedCursor) (xs : List ReplicatedCursor)
    (c : ReplicatedCursor) :
    upsertReplicatedCursor (x :: xs) c
      = if x.id = c.id then c :: xs else x :: upsertReplicatedCursor xs c := by
  unfold upsertReplicatedCursor
  by_cases h : x.id = c.id
  · rw [List.findIdx?_cons]
    simp [h]
  · rw [List.findIdx?_cons]
    rw [if_neg (by simp [h]), List.findIdx?_start_succ]
    cases hf : xs.findIdx? fun y => y.id == c.id with
    | none => simp [hf, h]
    | some k => simp [hf, h, List.set]

/-- Membership after an upsert: every entry was already present or is
the upserted one. -/
theorem mem_upsertReplicatedCursor (l : List ReplicatedCursor) (c x : ReplicatedCursor)
    (hx : x ∈ upsertReplicatedCursor l c) : x ∈ l ∨ x = c := by
  induction l with
  | nil =>
    right
    simpa [upsertReplicatedCursor] using hx
  | cons y ys ih =>
    rw [upsertReplicatedCursor_cons] at hx
    by_cases h : y.id = c.id
    · rw [if_pos h] at hx
      rcases List.mem_cons.mp hx with rfl | h2
      · right; rfl
      · left; exact List.mem_cons_of_mem y h2
    · rw [if_neg h] at hx
      rcases List.mem_cons.mp hx with rfl | h2
      · left; exact List.mem_cons_self x ys
      · rcases ih h2 with h3 | h3
        · left; exact List.mem_cons_of_mem y h3
        · right; exact h3

/-- Entries under other ids are untouched by an upsert. -/
theorem upsertReplicatedCursor_filter_ne (l : List ReplicatedCursor) (c : ReplicatedCursor) :
    (upsertReplicatedCursor l c).filter (fun y => !(y.id == c.id))
      = l.filter fun y => !(y.id == c.id) := by
  induction l with
  | nil => simp [upsertReplicatedCursor]
  | cons x xs ih =>
    rw [upsertReplicatedCursor_cons]
    by_cases h : x.id = c.id
    · rw [if_pos h, List.filter_cons_of_neg (by simp), List.filter_cons_of_neg (by simp [h])]
    · rw [if_neg h, List.filter_cons_of_pos (by simp [h]), List.filter_cons_of_pos (by simp [h])]
      exact congrArg (x :: ·) ih

/-- After one upsert into an id-keyed (duplicate-free) collection, the
entries under the upserted id are exactly the single new payload. -/
theorem upsertReplicatedCursor_filter_eq (l : List ReplicatedCursor) (c : ReplicatedCursor)
    (hnd : (l.map fun y => y.id).Nodup) :
    (upsertReplicatedCursor l c).filter (fun y => y.id == c.id) = [c] := by
  induction l with
  | nil => simp [upsertReplicatedCursor]
  | cons x xs ih =>
    rw [List.map_cons, List.nodup_cons] at hnd
    rw [upsertReplicatedCursor_cons]
    by_cases h : x.id = c.id
    · rw [if_pos h, List.filter_cons_of_pos (by simp)]
      have hnone : xs.filter (fun y => y.id == c.id) = [] := by
        rw [List.filter_eq_nil_iff]
        intro y hy
        simp only [beq_iff_eq]
        intro he
        refine hnd.1 ?_
        have : y.id ∈ xs.map fun z => z.id := List.mem_map_of_mem (fun z => z.id) hy
        rwa [he, ← h] at this
      rw [hnone]
    · rw [if_neg h, List.filter_cons_of_neg (by simp [h])]
      exact ih hnd.2

/-- Upserting the same payload twice equals upserting it once. -/
theorem upsertReplicatedCursor_idem (l : List ReplicatedCursor) (c : ReplicatedCursor) :
    upsertReplicatedCursor (upsertReplicatedCursor l c) c = upsertReplicatedCursor l c := by
  induction l with
  | nil =>
    show upsertReplicatedCursor [c] c = [c]
    rw [upsertReplicatedCursor_cons, if_pos rfl]
  | cons x xs ih =>
    rw [upsertReplicatedCursor_cons]
    by_cases h : x.id = c.id
    · rw [if_pos h, upsertReplicatedCursor_cons, if_pos rfl]
    · rw [if_neg h, upsertReplicatedCursor_cons, if_neg h, ih]

/-- C7: upserting the same remote-cursor payload twice into an
id-keyed (duplicate-free) replicated set is idempotent — the set ends
with exactly one entry under that id, holding the latest values, and
every entry under any other id is exactly as before. -/
theorem upsert_idempotent_c7 (cursors : List ReplicatedCursor) (c : ReplicatedCursor)
    (hnd : (cursors.map fun y => y.id).Nodup) :
    upsertReplicatedCursor (upsertReplicatedCursor cursors c) c
        = upsertReplicatedCursor cursors c
    ∧ (upsertReplicatedCursor (upsertReplicatedCursor cursors c) c).filter
        (fun y => y.id == c.id) = [c]
    ∧ (upsertReplicatedCursor (upsertReplicatedCursor cursors c) c).filter
        (fun y => !(y.id == c.id)) = cursors.filter fun y => !(y.id == c.id) := by
  refine ⟨upsertReplicatedCursor_idem cursors c, ?_, ?_⟩
  · rw [upsertReplicatedCursor_idem cursors c]
    exact upsertReplicatedCursor_filter_eq cursors c hnd
  · rw [upsertReplicatedCursor_idem cursors c, upsertReplicatedCursor_filter_ne]

/-- Witness for C7: a two-entry set, upserting fresh values twice for
the second id. -/
theorem upsert_idempotent_c7_witness :
    upsertReplicatedCursor (upsertReplicatedCursor
        [⟨"p1", none, 1, 1⟩, ⟨"p2", none, 2, 2⟩] ⟨"p2", some "Bea", 5, 6⟩)
        ⟨"p2", some "Bea", 5, 6⟩
      = upsertReplicatedCursor [⟨"p1", none, 1, 1⟩, ⟨"p2", none, 2, 2⟩] ⟨"p2", some "Bea", 5, 6⟩
    ∧ (upsertReplicatedCursor (upsertReplicatedCursor
        [⟨"p1", none, 1, 1⟩, ⟨"p2", none, 2, 2⟩] ⟨"p2", some "Bea", 5, 6⟩)
        ⟨"p2", some "Bea", 5, 6⟩).filter (fun y => y.id == "p2") = [⟨"p2", some "Bea", 5, 6⟩] :=
  ⟨(upsert_idempotent_c7 [⟨"p1", none, 1, 1⟩, ⟨"p2", none, 2, 2⟩] ⟨"p2", some "Bea", 5, 6⟩
      (by decide)).1,
   (upsert_idempotent_c7 [⟨"p1", none, 1, 1⟩, ⟨"p2", none, 2, 2⟩] ⟨"p2", some "Bea", 5, 6⟩
      (by decide)).2.1⟩

/-- One handler invocation preserves the established-identity
invariant: once the local id is known and absent from the replicated
set, any message whose welcomes (if any) carry that same id keeps it
absent. -/
theorem clientStep_no_self (v : ClientView) (myId : String) (m : ServerToClient)
    (hyou : v.you = some myId)
    (hcur : ∀ c ∈ v.cursors, c.id ≠ myId)
    (hm : welcomeIs myId m = true) :
    (clientStep v m).you = some myId ∧ ∀ c ∈ (clientStep v m).cursors, c.id ≠ myId := by
  cases m with
  | welcome i g =>
    have hi : i = myId := by simpa [welcomeIs] using hm
    exact ⟨by simp [clientStep, hi], by simpa [clientStep] using hcur⟩
  | players ps =>
    refine ⟨by simpa [clientStep] using hyou, ?_⟩
    intro c hc
    simp only [clientStep] at hc
    rw [List.mem_filterMap] at hc
    obtain ⟨p, _, hf⟩ := hc
    cases hpc : p.cursor with
    | none => simp [hpc] at hf
    | some cc =>
      by_cases hid : v.you = some p.id
      · simp [hpc, hid] at hf
      · simp only [hpc, if_neg hid, Option.some_inj] at hf
        rw [← hf]
        intro he
        have he2 : p.id = myId := he
        exact hid (by rw [hyou, he2])
  | playerUpdate u =>
    by_cases hid : v.you = some u.id
    · simp only [clientStep, if_pos hid]
      exact ⟨hyou, hcur⟩
    · cases huc : u.cursor with
      | none =>
        simp only [clientStep, if_neg hid, huc]
        exact ⟨hyou, hcur⟩
      | some cc =>
        simp only [clientStep, if_neg hid, huc]
        refine ⟨hyou, ?_⟩
        intro c hc
        rcases mem_upsertReplicatedCursor _ _ _ hc with h1 | rfl
        · exact hcur c h1
        · intro he
          have he2 : u.id = myId := he
          exact hid (by rw [hyou, he2])
  | playerLeave i =>
    refine ⟨by simpa [clientStep] using hyou, ?_⟩
    intro c hc
    simp only [clientStep, removeReplicatedCursor] at hc
    exact hcur c (List.mem_of_mem_filter hc)

/-- Once the welcome has established the local id, no later prefix of
the remaining stream ever puts that id into the replicated set. -/
theorem clientRun_no_self_take (ms : List ServerToClient) (myId : String) :
    ∀ v : ClientView, v.you = some myId → (∀ c ∈ v.cursors, c.id ≠ myId) →
      (∀ m ∈ ms, welcomeIs myId m = true) →
      ∀ n, ∀ c ∈ (clientRun v (ms.take n)).cursors, c.id ≠ myId := by
  induction ms with
  | nil =>
    intro v _ hcur _ n
    simpa [clientRun] using hcur
  | cons m rest ih =>
    intro v hyou hcur hW n
    cases n with
    | zero => simpa [clientRun] using hcur
    | succ k =>
      rw [List.take_succ_cons]
      have hs := clientStep_no_self v myId m hyou hcur (hW m (List.mem_cons_self m rest))
      exact ih (clientStep v m) hs.1 hs.2 (fun x hx => hW x (List.mem_cons_of_mem m hx)) k

/-- C8: starting from the initial view, for any handler-invocation
sequence in which the welcome carrying the local id precedes any
players snapshot or playerUpdate (the order the server produces), the
replicated-cursor set never contains an entry with the local id, after
any prefix of the sequence. -/
theorem no_self_in_replicated_c8 (ms : List ServerToClient) (myId : String)
    (hW : ∀ m ∈ ms, welcomeIs myId m = true)
    (hOrd : welcomeFirst ms = true) :
    ∀ n, ∀ c ∈ (clientRun initialView (ms.take n)).cursors, c.id ≠ myId := by
  induction ms with
  | nil =>
    intro n c hc
    simp [clientRun, initialView] at hc
  | cons m rest ih =>
    intro n
    cases n with
    | zero =>
      intro c hc
      simp [clientRun, initialView] at hc
    | succ k =>
      rw [List.take_succ_cons]
      show ∀ c ∈ (clientRun (clientStep initialView m) (rest.take k)).cursors, c.id ≠ myId
      cases m with
      | welcome i g =>
        have hi : i = myId := by
          simpa [welcomeIs] using hW _ (List.mem_cons_self _ rest)
        have hstep : clientStep initialView (.welcome i g) = ⟨some myId, []⟩ := by
          simp [clientStep, initialView, hi]
        rw [hstep]
        exact clientRun_no_self_take rest myId ⟨some myId, []⟩ rfl (by simp)
          (fun x hx => hW x (List.mem_cons_of_mem _ hx)) k
      | players ps => exact absurd hOrd (by simp [welcomeFirst])
      | playerUpdate u => exact absurd hOrd (by simp [welcomeFirst])
      | playerLeave i =>
        have hstep : clientStep initialView (.playerLeave i) = initialView := by
          simp [clientStep, initialView, removeReplicatedCursor]
        rw [hstep]
        exact ih (fun x hx => hW x (List.mem_cons_of_mem _ hx))
          (by simpa [welcomeFirst] using hOrd) k

/-- Witness for C8: a welcome-first stream whose snapshot and updates
mention the local id "me"; after the full stream the replicated set
holds no entry under "me". -/
theorem no_self_in_replicated_c8_witness :
    ("me" : String) ∉ ((clientRun initialView
      ([.welcome "me" GRID,
        .players [⟨"me", none, some ⟨1, 1⟩, 0⟩, ⟨"b2", none, some ⟨2, 2⟩, 0⟩],
        .playerUpdate ⟨"me", some "M", some ⟨3, 3⟩, 1⟩,
        .playerUpdate ⟨"b2", none, some ⟨4, 4⟩, 1⟩,
        .playerLeave "b2"].take 5)).cursors.map fun c => c.id) := by
  intro hmem
  rw [List.mem_map] at hmem
  obtain ⟨c, hc, hid⟩ := hmem
  exact no_self_in_replicated_c8
    [.welcome "me" GRID,
     .players [⟨"me", none, some ⟨1, 1⟩, 0⟩, ⟨"b2", none, some ⟨2, 2⟩, 0⟩],
     .playerUpdate ⟨"me", some "M", some ⟨3, 3⟩, 1⟩,
     .playerUpdate ⟨"b2", none, some ⟨4, 4⟩, 1⟩,
     .playerLeave "b2"] "me" (by decide) (by decide) 5 c hc hid

/-- Witness for C5: a hello frame with the unsupported protocol
version 2 fails validation; the handler emits nothing, the two-entry
store keeps every id, name, cursor and socket state, and the sender
keeps its name. -/
theorem invalid_frame_inert_c5_witness :
    (onMessage ⟨"a1", some "Ann", some ⟨1, 2⟩, 0, true⟩
      [⟨"a1", some "Ann", some ⟨1, 2⟩, 0, true⟩, ⟨"b2", none, none, 0, true⟩] 42
      (some (.obj [("kind", .str "hello"), ("version", .numI 2), ("name", .str "Zed")]))).2.2
      = []
    ∧ (onMessage ⟨"a1", some "Ann", some ⟨1, 2⟩, 0, true⟩
      [⟨"a1", some "Ann", some ⟨1, 2⟩, 0, true⟩, ⟨"b2", none, none, 0, true⟩] 42
      (some (.obj [("kind", .str "hello"), ("version", .numI 2), ("name", .str "Zed")]))).1.name
      = some "Ann"
    ∧ ((onMessage ⟨"a1", some "Ann", some ⟨1, 2⟩, 0, true⟩
      [⟨"a1", some "Ann", some ⟨1, 2⟩, 0, true⟩, ⟨"b2", none, none, 0, true⟩] 42
      (some (.obj [("kind", .str "hello"), ("version", .numI 2), ("name", .str "Zed")]))).2.1).map
        (fun c => (c.id, c.name, c.cursor, c.wsOpen))
      = [("a1", some "Ann", some ⟨1, 2⟩, true), ("b2", none, none, true)] := by
  have h := invalid_frame_inert_c5 ⟨"a1", some "Ann", some ⟨1, 2⟩, 0, true⟩
    [⟨"a1", some "Ann", some ⟨1, 2⟩, 0, true⟩, ⟨"b2", none, none, 0, true⟩] 42
    (some (.obj [("kind", .str "hello"), ("version", .numI 2), ("name", .str "Zed")]))
    (by decide) (by decide)
  exact ⟨h.1, h.2.1, h.2.2.2.2.2.trans (by decide)⟩
